import Mathlib

/-!
# Verification of the Swallow weewx serial driver (src/swallow.py)

Shallow embedding of the driver's pure core: frame validation
(`Station.validate_string`), the hex byte codec used by `get_readings` and
`Station._decode`, the short-read handling of `Station.get_readings`, the
humidity clamp of `Station.parse_readings`, and the stateful rain/geiger
delta logic of `SwallowDriver._augment_packet`.

Frames are hexadecimal character strings in the source; they are modelled as
`List Char`.  Decoded numeric sensor values (Python floats) are modelled as
exact rationals `ℚ`; the claims settled over them concern branch structure
and exact decimal examples, not IEEE-754 rounding.
-/

namespace Swallow

/-- `PACKET_CHAR_COUNT = 98` (line 21 of the source). -/
def PACKET_CHAR_COUNT : Nat := 98

/-- `PACKET_BYTE_COUNT = 49` (line 22 of the source). -/
def PACKET_BYTE_COUNT : Nat := 49

/-- The header constant `'ccdd00022a'` checked at line 147 and stripped at
line 149 of the source. -/
def headerChars : List Char := ['c', 'c', 'd', 'd', '0', '0', '0', '2', '2', 'a']

/-- Structured form of the `weewx.WeeWxIOError` values raised by
`Station.validate_string` (lines 146 and 148). -/
inductive VError where
  | badLength (len : Nat)
  | badHeader (hdr : List Char)
deriving DecidableEq, Repr

/-- Fuel-indexed model of Python's `buf.replace('ccdd00022a', '')`
(line 149): scan left to right, and at each position either remove a full
occurrence of the 10-character header and continue after it, or keep the
character and continue.  The fuel only bounds the recursion; each step
consumes at least one character, so with fuel `≥` the list length the
zero-fuel branch is never reached. -/
def stripAllAux : Nat → List Char → List Char
  | _, [] => []
  | 0, s => s
  | fuel + 1, c :: rest =>
      if headerChars.isPrefixOf (c :: rest) then
        stripAllAux fuel (rest.drop 9)
      else
        c :: stripAllAux fuel rest

/-- `buf.replace('ccdd00022a', '')` (line 149): removes every occurrence of
the header substring, not only the leading one. -/
def stripHeaderAll (s : List Char) : List Char :=
  stripAllAux s.length s

/-- `Station.validate_string` (lines 143–151): reject on wrong length, then
on wrong 10-character prefix, then return the buffer with every occurrence
of `'ccdd00022a'` removed.  No checksum is computed anywhere in the
function. -/
def validate_string (buf : List Char) : Except VError (List Char) :=
  if buf.length ≠ PACKET_CHAR_COUNT then
    .error (.badLength buf.length)
  else if buf.take 10 ≠ headerChars then
    .error (.badHeader (buf.take 10))
  else
    .ok (stripHeaderAll buf)

/-- `true` iff the header substring occurs somewhere in `s` (the same
left-to-right scan `replace` performs). -/
def containsHeader : List Char → Bool
  | [] => false
  | c :: rest => headerChars.isPrefixOf (c :: rest) || containsHeader rest

/-- One lowercase hexadecimal digit character for a value `0 ≤ n < 16`, as
produced by Python 2's `str.encode('hex')`. -/
def hexDigitChar (n : Nat) : Char :=
  if n < 10 then Char.ofNat (48 + n) else Char.ofNat (87 + n)

/-- `bytes_to_hex_digits`: the loop at lines 131–133 of `get_readings`,
`received_chars += received_bytes[i].encode('hex')` — each byte becomes two
lowercase hex characters, concatenated in input order. -/
def bytes_to_hex_digits : List Nat → List Char
  | [] => []
  | b :: bs =>
      hexDigitChar (b / 16) :: hexDigitChar (b % 16) :: bytes_to_hex_digits bs

/-- Value of one hexadecimal digit character, as accepted by Python's
`int(s, 16)`. -/
def hexDigitVal (c : Char) : Option Nat :=
  if '0' ≤ c ∧ c ≤ '9' then some (c.toNat - 48)
  else if 'a' ≤ c ∧ c ≤ 'f' then some (c.toNat - 87)
  else if 'A' ≤ c ∧ c ≤ 'F' then some (c.toNat - 55)
  else none

/-- Accumulator loop of a base-16 parse. -/
def hexParseAux : List Char → Nat → Option Nat
  | [], acc => some acc
  | c :: rest, acc =>
      match hexDigitVal c with
      | some d => hexParseAux rest (acc * 16 + d)
      | none => none

/-- `hex_digits_to_uint`: `int(s, 16)` as used by `Station._decode`
(line 214) and by the `int(..., BASE)` / `long(..., BASE)` calls of
`parse_readings`; the empty string raises `ValueError`, modelled as
`none`. -/
def hex_digits_to_uint (s : List Char) : Option Nat :=
  match s with
  | [] => none
  | _ :: _ => hexParseAux s 0

/-- The big-endian byte sequence of an `n`-byte unsigned integer. -/
def uintToBytesBE : Nat → Nat → List Nat
  | 0, _ => []
  | k + 1, v => uintToBytesBE k (v / 256) ++ [v % 256]

/-- Pairs of hex digits to the byte values they denote; `none` for a
malformed (odd-length or non-hex) string. -/
def hexPairsToBytes : List Char → Option (List Nat)
  | [] => some []
  | [_] => none
  | c :: d :: rest =>
      match hexDigitVal c, hexDigitVal d, hexPairsToBytes rest with
      | some hi, some lo, some bs => some ((hi * 16 + lo) :: bs)
      | _, _, _ => none

/-- Follows the spec's words (§4.3, check 3), for comparison with the code's
`validate_string`: after removing the 5-byte header, the first 2 bytes of
the remainder carry the checksum and the data portion is everything after
them; the checksum is valid when the carried 16-bit value equals
`0xFFFF - sum(data_bytes)`.  The flag selects which byte order reassembles
the 2 carried bytes. -/
def checksumOkSpec (bigEndian : Bool) (frame : List Char) : Bool :=
  match hexPairsToBytes (frame.drop 10) with
  | some (b0 :: b1 :: dataBytes) =>
      let carried := if bigEndian then b0 * 256 + b1 else b1 * 256 + b0
      carried == 0xFFFF - dataBytes.sum
  | _ => false

/-- The two per-session counters held on `SwallowDriver` (`self.last_rain`
and `self.last_geiger`, initialised to `0.0` and `0` at lines 44–45). -/
structure DriverState where
  last_rain : ℚ
  last_geiger : ℤ
deriving DecidableEq, Repr

/-- The fields of a decoded reading that `_augment_packet` consumes. -/
structure Reading where
  long_term_rain : ℚ
  long_term_geiger : ℤ
deriving DecidableEq, Repr

/-- The derived delta fields `_augment_packet` adds to the packet; `none`
models Python's `None`. -/
structure Deltas where
  deltarain : Option ℚ
  geiger : Option ℤ
deriving DecidableEq, Repr

/-- `SwallowDriver._augment_packet` (lines 75–89): when the stored counter
is nonzero the delta is `new - last` (no rounding, no clamping at zero);
when the stored counter is zero the packet field is set to `None`.  The
stored counters are then overwritten with the new cumulative values
unconditionally (lines 82 and 89). -/
def augment_packet (st : DriverState) (r : Reading) : DriverState × Deltas :=
  let deltarain :=
    if st.last_rain ≠ 0 then some (r.long_term_rain - st.last_rain) else none
  let geiger :=
    if st.last_geiger ≠ 0 then some (r.long_term_geiger - st.last_geiger)
    else none
  (⟨r.long_term_rain, r.long_term_geiger⟩, ⟨deltarain, geiger⟩)

/-- Lines 185–189 of `parse_readings`: the branch applied to the decoded
humidity value `humi` before it is stored as `outHumidity` — only an upper
clamp at `100.0` exists; there is no lower clamp. -/
def clampHumidity (humi : ℚ) : ℚ :=
  if humi > 100 then 100 else humi

/-- Modelled from the spec: the outside-temperature outlier filter of §4.5
is absent from `src/swallow.py` (no `last_accepted_outside_temp` state, no
`5.0` threshold appears anywhere in that file); the spec attributes it to
the repository's second near-duplicate driver revision.  Following the
spec's words: if `last_accepted_outside_temp` is unset, accept the new raw
temperature unconditionally and store it; if set, accept (and store) only
when `abs(last_accepted - new) < 5.0`, otherwise output the previously
accepted value and leave the state unchanged.  Returns (new state, output
temperature). -/
def temp_filter (last_accepted : Option ℚ) (t : ℚ) : Option ℚ × ℚ :=
  match last_accepted with
  | none => (some t, t)
  | some last => if |last - t| < 5 then (some t, t) else (some last, last)

/-- Outcome of one call to `Station.get_readings`. -/
inductive GResult where
  | ok (payload : List Char)
  | ioError (e : VError)
  | unboundLocal
deriving DecidableEq, Repr

/-- `Station.get_readings` (lines 115–136), with the serial environment made
explicit: `a0 a1 a2` are the `inWaiting()` values observed on the three
write/wait/check attempts, and `received` the bytes a 49-byte read would
return.  The loop breaks at the first attempt reporting at least 49 bytes,
so the final `data_left` is the first such value, or the third attempt's
value when none reaches 49.  After the loop, if `data_left >= 49` the driver
reads 49 bytes, hex-encodes them and validates (a validation failure raises
`weewx.WeeWxIOError` through the caller); otherwise control reaches
`return validated_chars` with `validated_chars` never assigned, which raises
`UnboundLocalError` — not a `weewx.WeeWxIOError`. -/
def get_readings (a0 a1 a2 : Nat) (received : List Nat) : GResult :=
  let data_left :=
    if a0 ≥ PACKET_BYTE_COUNT then a0
    else if a1 ≥ PACKET_BYTE_COUNT then a1
    else a2
  if data_left ≥ PACKET_BYTE_COUNT then
    match validate_string
        (bytes_to_hex_digits (received.take PACKET_BYTE_COUNT)) with
    | .ok p => .ok p
    | .error e => .ioError e
  else .unboundLocal

/-- A 98-character frame with the correct header and all-zero body: the
checksum bytes and every data byte are zero, so the carried checksum (0)
differs from `0xFFFF - 0` under either byte order. -/
def zeroDataFrame : List Char := headerChars ++ List.replicate 88 '0'

/-- A 98-character frame of correct length and header whose data region
contains a second copy of the header substring. -/
def doubleHeaderFrame : List Char :=
  headerChars ++ headerChars ++ List.replicate 78 '0'

/-- A 98-character frame with correct header whose spec checksum is also
correct: carried bytes `ff ff` (65535 under either byte order) and 42 zero
data bytes, so `0xFFFF - 0 = 0xFFFF` matches. -/
def goodChecksumFrame : List Char :=
  headerChars ++ ['f', 'f', 'f', 'f'] ++ List.replicate 84 '0'

/-! ## Helper lemmas -/

lemma stripAllAux_succ (fuel : Nat) (s : List Char) (h : s.length ≤ fuel) :
    stripAllAux (fuel + 1) s = stripAllAux fuel s := by
  induction fuel generalizing s with
  | zero =>
      have : s = [] := List.eq_nil_of_length_eq_zero (Nat.le_zero.mp h)
      subst this
      rfl
  | succ n ih =>
      cases s with
      | nil => rfl
      | cons c rest =>
          have hr : rest.length ≤ n := by
            simp only [List.length_cons] at h
            omega
          by_cases hp : headerChars.isPrefixOf (c :: rest)
          · have h1 : (rest.drop 9).length ≤ n := by
              have := List.length_drop 9 rest
              omega
            simp only [stripAllAux, hp, if_true]
            exact ih _ h1
          · simp only [stripAllAux, hp, if_false, Bool.false_eq_true]
            rw [ih _ hr]

lemma stripAllAux_of_le (fuel : Nat) (s : List Char) (h : s.length ≤ fuel) :
    stripAllAux fuel s = stripHeaderAll s := by
  obtain ⟨k, rfl⟩ : ∃ k, fuel = s.length + k := ⟨fuel - s.length, by omega⟩
  induction k with
  | zero => rfl
  | succ m ih =>
      rw [show s.length + (m + 1) = s.length + m + 1 by omega,
        stripAllAux_succ _ s (by omega), ih (by omega)]

lemma stripHeaderAll_cons_no_match (c : Char) (rest : List Char)
    (hp : ¬ headerChars.isPrefixOf (c :: rest)) :
    stripHeaderAll (c :: rest) = c :: stripHeaderAll rest := by
  show stripAllAux (rest.length + 1) (c :: rest) = c :: stripHeaderAll rest
  simp only [stripAllAux, hp, if_false, Bool.false_eq_true]
  rw [stripAllAux_of_le rest.length rest (Nat.le_refl _)]

lemma stripHeaderAll_of_not_contains (s : List Char)
    (h : containsHeader s = false) : stripHeaderAll s = s := by
  induction s with
  | nil => rfl
  | cons c rest ih =>
      simp only [containsHeader, Bool.or_eq_false_iff] at h
      rw [stripHeaderAll_cons_no_match c rest (by simp [h.1]), ih h.2]

lemma stripHeaderAll_header_append (s : List Char) :
    stripHeaderAll (headerChars ++ s) = stripHeaderAll s := by
  have hp : headerChars.isPrefixOf
      ('c' :: (['c', 'd', 'd', '0', '0', '0', '2', '2', 'a'] ++ s)) :=
    List.isPrefixOf_iff_prefix.mpr (List.prefix_append _ _)
  show stripAllAux (headerChars ++ s).length (headerChars ++ s)
      = stripHeaderAll s
  have hlen : (headerChars ++ s).length = s.length + 9 + 1 := by
    simp only [headerChars, List.length_append, List.length_cons,
      List.length_nil]
    omega
  rw [hlen]
  show stripAllAux (s.length + 9 + 1)
      ('c' :: (['c', 'd', 'd', '0', '0', '0', '2', '2', 'a'] ++ s))
      = stripHeaderAll s
  simp only [stripAllAux, hp, if_true]
  rw [show (['c', 'd', 'd', '0', '0', '0', '2', '2', 'a'] ++ s).drop 9 = s
    from rfl]
  exact stripAllAux_of_le _ s (by omega)

lemma hexDigitVal_hexDigitChar : ∀ d, d < 16 →
    hexDigitVal (hexDigitChar d) = some d := by
  decide

lemma hexParseAux_append (xs ys : List Char) (acc m : Nat)
    (h : hexParseAux xs acc = some m) :
    hexParseAux (xs ++ ys) acc = hexParseAux ys m := by
  induction xs generalizing acc with
  | nil =>
      simp only [hexParseAux, Option.some.injEq] at h
      simp [h]
  | cons c rest ih =>
      simp only [hexParseAux] at h ⊢
      cases hd : hexDigitVal c with
      | none => simp [hd] at h
      | some d =>
          simp only [hd] at h ⊢
          exact ih _ h

lemma hexParseAux_pair (b acc : Nat) (hb : b < 256) :
    hexParseAux [hexDigitChar (b / 16), hexDigitChar (b % 16)] acc
      = some (acc * 256 + b) := by
  have h1 : b / 16 < 16 := by omega
  have h2 : b % 16 < 16 := by omega
  simp only [hexParseAux, hexDigitVal_hexDigitChar _ h1,
    hexDigitVal_hexDigitChar _ h2]
  congr 1
  omega

lemma bytes_to_hex_digits_append (xs ys : List Nat) :
    bytes_to_hex_digits (xs ++ ys)
      = bytes_to_hex_digits xs ++ bytes_to_hex_digits ys := by
  induction xs with
  | nil => rfl
  | cons b bs ih => simp [bytes_to_hex_digits, ih]

lemma hexParseAux_bytesBE (k : Nat) : ∀ v acc, v < 256 ^ k →
    hexParseAux (bytes_to_hex_digits (uintToBytesBE k v)) acc
      = some (acc * 256 ^ k + v) := by
  induction k with
  | zero =>
      intro v acc hv
      have : v = 0 := by simpa using hv
      subst this
      simp [uintToBytesBE, bytes_to_hex_digits, hexParseAux]
  | succ k ih =>
      intro v acc hv
      have hdiv : v / 256 < 256 ^ k := by
        rw [Nat.div_lt_iff_lt_mul (by norm_num)]
        calc v < 256 ^ (k + 1) := hv
          _ = 256 ^ k * 256 := by rw [pow_succ]
      have hmod : v % 256 < 256 := Nat.mod_lt _ (by norm_num)
      rw [uintToBytesBE, bytes_to_hex_digits_append,
        hexParseAux_append _ _ _ _ (ih (v / 256) acc hdiv)]
      show hexParseAux
        [hexDigitChar (v % 256 / 16), hexDigitChar (v % 256 % 16)] _ = _
      rw [hexParseAux_pair _ _ hmod]
      congr 1
      have hv256 : v / 256 * 256 + v % 256 = v := Nat.div_add_mod' v 256
      calc (acc * 256 ^ k + v / 256) * 256 + v % 256
          = acc * (256 ^ k * 256) + (v / 256 * 256 + v % 256) := by ring
        _ = acc * 256 ^ (k + 1) + v := by rw [hv256, pow_succ]

lemma uintToBytesBE_roundtrip (k v : Nat) (hk : 0 < k) (hv : v < 256 ^ k) :
    hex_digits_to_uint (bytes_to_hex_digits (uintToBytesBE k v)) = some v := by
  obtain ⟨m, rfl⟩ : ∃ m, k = m + 1 := ⟨k - 1, by omega⟩
  have hne : bytes_to_hex_digits (uintToBytesBE (m + 1) v) ≠ [] := by
    rw [uintToBytesBE, bytes_to_hex_digits_append]
    simp [bytes_to_hex_digits]
  cases hs : bytes_to_hex_digits (uintToBytesBE (m + 1) v) with
  | nil => exact absurd hs hne
  | cons c rest =>
      have := hexParseAux_bytesBE (m + 1) v 0 hv
      rw [hs] at this
      simpa [hex_digits_to_uint] using this

lemma validate_string_ok (buf : List Char)
    (hlen : buf.length = PACKET_CHAR_COUNT)
    (hhdr : buf.take 10 = headerChars) :
    validate_string buf = .ok (stripHeaderAll buf) := by
  simp [validate_string, hlen, hhdr, PACKET_CHAR_COUNT]

/-! ## Claims -/

/-- C1, counterexample: `zeroDataFrame` has correct length and header but
its carried checksum (0) differs from `0xFFFF` minus the (zero) data-byte
sum under either byte order, yet `validate_string` accepts it and returns a
payload — the code never verifies a checksum. -/
theorem c1_checksum_counterexample :
    validate_string zeroDataFrame = .ok (List.replicate 88 '0')
      ∧ checksumOkSpec true zeroDataFrame = false
      ∧ checksumOkSpec false zeroDataFrame = false :=
  ⟨rfl, by decide, by decide⟩

/-- C1 (amended): `validate_string` performs no checksum verification —
every 98-character buffer whose first 10 characters are the header constant
is accepted and a payload is returned, whatever its checksum bytes hold. -/
theorem c1_validate_ignores_checksum (buf : List Char)
    (hlen : buf.length = PACKET_CHAR_COUNT)
    (hhdr : buf.take 10 = headerChars) :
    ∃ payload, validate_string buf = .ok payload :=
  ⟨stripHeaderAll buf, validate_string_ok buf hlen hhdr⟩

/-- C1 witness: the amended statement applied to `zeroDataFrame`. -/
theorem c1_validate_ignores_checksum_witness :
    zeroDataFrame.length = PACKET_CHAR_COUNT
      ∧ zeroDataFrame.take 10 = headerChars
      ∧ ∃ payload, validate_string zeroDataFrame = .ok payload :=
  ⟨by decide, by decide,
    c1_validate_ignores_checksum zeroDataFrame (by decide) (by decide)⟩

/-- C2, counterexample: with stored cumulative rain 10.0 a new cumulative
reading of 4.0 yields `deltarain = -6.0`, not the claimed `0.0`. -/
theorem c2_rain_delta_counterexample :
    (augment_packet ⟨10, 5⟩ ⟨4, 7⟩).2.deltarain = some (-6)
      ∧ (augment_packet ⟨10, 5⟩ ⟨4, 7⟩).2.deltarain ≠ some 0 := by
  constructor
  · norm_num [augment_packet]
  · norm_num [augment_packet]

/-- C2 (amended): the rain post-processing sets `deltarain` to `None` when
the stored last cumulative rain is `0.0` (the unset sentinel) and otherwise
to `new - last` exactly — no rounding and no flooring at zero, so a
decreased reading yields a negative delta; with stored 10.0, a reading of
12.3 yields 2.3 and a reading of 4.0 yields -6.0. -/
theorem c2_rain_delta :
    (∀ st r, (augment_packet st r).2.deltarain =
        if st.last_rain = 0 then none
        else some (r.long_term_rain - st.last_rain))
      ∧ (augment_packet ⟨10, 5⟩ ⟨123 / 10, 7⟩).2.deltarain = some (23 / 10)
      ∧ (augment_packet ⟨10, 5⟩ ⟨4, 7⟩).2.deltarain = some (-6)
      ∧ (augment_packet ⟨0, 5⟩ ⟨123 / 10, 7⟩).2.deltarain = none := by
  refine ⟨fun st r => ?_, by norm_num [augment_packet],
    by norm_num [augment_packet], by norm_num [augment_packet]⟩
  by_cases h : st.last_rain = 0 <;> simp [augment_packet, h]

/-- C3: with the last accepted outside temperature set, the spec-modelled
filter outputs (and stores) the new raw temperature exactly when
`abs(last - new) < 5.0`, and otherwise outputs the previously accepted
value with the state unchanged; the out-of-band raw value never appears in
the output and the filter is total (it never signals an error). -/
theorem c3_temp_filter_behavior (last t : ℚ) :
    (|last - t| < 5 → temp_filter (some last) t = (some t, t))
      ∧ (5 ≤ |last - t| → temp_filter (some last) t = (some last, last)) := by
  constructor
  · intro h
    simp only [temp_filter]
    rw [if_pos h]
  · intro h
    simp only [temp_filter]
    rw [if_neg (not_lt.mpr h)]

/-- C3 witness: last accepted 20.0 — a reading of 24.9 is accepted and
stored, a reading of 26.0 is rejected with state and output 20.0. -/
theorem c3_temp_filter_behavior_witness :
    (|(20 : ℚ) - 249 / 10| < 5
      ∧ temp_filter (some 20) (249 / 10) = (some (249 / 10), 249 / 10))
      ∧ ((5 : ℚ) ≤ |(20 : ℚ) - 26|
        ∧ temp_filter (some 20) 26 = (some 20, 20)) :=
  ⟨⟨by norm_num [abs_lt],
    (c3_temp_filter_behavior 20 (249 / 10)).1 (by norm_num [abs_lt])⟩,
   ⟨by norm_num [le_abs],
    (c3_temp_filter_behavior 20 26).2 (by norm_num [le_abs])⟩⟩

/-- C4: when all three write/wait/check attempts observe fewer than 49
available bytes, `get_readings` reaches `return validated_chars` with the
variable never assigned, raising `UnboundLocalError` — it neither returns a
value nor attempts a partial read, but it also is not the
`weewx.WeeWxIOError` the spec's TransportError("short frame") calls for. -/
theorem c4_short_read_unbound_local (a0 a1 a2 : Nat) (received : List Nat)
    (h0 : a0 < PACKET_BYTE_COUNT) (h1 : a1 < PACKET_BYTE_COUNT)
    (h2 : a2 < PACKET_BYTE_COUNT) :
    get_readings a0 a1 a2 received = .unboundLocal := by
  simp only [PACKET_BYTE_COUNT] at h0 h1 h2
  simp only [get_readings, PACKET_BYTE_COUNT]
  split_ifs <;> first | rfl | (exfalso; omega)

/-- C4 witness: three attempts with 0, 10 and 48 available bytes. -/
theorem c4_short_read_unbound_local_witness :
    (0 < PACKET_BYTE_COUNT ∧ 10 < PACKET_BYTE_COUNT
      ∧ 48 < PACKET_BYTE_COUNT)
      ∧ get_readings 0 10 48 [] = .unboundLocal :=
  ⟨⟨by decide, by decide, by decide⟩,
    c4_short_read_unbound_local 0 10 48 [] (by decide) (by decide)
      (by decide)⟩

/-- C5, counterexample: `goodChecksumFrame` has correct length, header and
(spec) checksum under either byte order, yet the returned payload is 88 hex
characters (44 bytes), not 84 (42 bytes): `validate_string` strips only the
10-character header and never strips checksum bytes. -/
theorem c5_payload_length_counterexample :
    validate_string goodChecksumFrame
        = .ok (['f', 'f', 'f', 'f'] ++ List.replicate 84 '0')
      ∧ checksumOkSpec true goodChecksumFrame = true
      ∧ checksumOkSpec false goodChecksumFrame = true
      ∧ (['f', 'f', 'f', 'f'] ++ List.replicate 84 '0').length = 88
      ∧ (88 : Nat) ≠ 84 :=
  ⟨rfl, by decide, by decide, by decide, by decide⟩

/-- C5 (amended): for every 98-character frame with the correct header whose
remainder does not contain the header substring again, `validate_string`
succeeds and returns the frame minus only its 10-character (5-byte) header:
a payload of 88 hex characters / 44 bytes, checksum bytes included. -/
theorem c5_payload_is_88_chars (buf : List Char)
    (hlen : buf.length = PACKET_CHAR_COUNT)
    (hhdr : buf.take 10 = headerChars)
    (hno : containsHeader (buf.drop 10) = false) :
    validate_string buf = .ok (buf.drop 10)
      ∧ (buf.drop 10).length = 88 := by
  have hsplit : headerChars ++ buf.drop 10 = buf := by
    conv_rhs => rw [← List.take_append_drop 10 buf]
    rw [hhdr]
  have hstrip : stripHeaderAll buf = buf.drop 10 := by
    conv_lhs => rw [← hsplit]
    rw [stripHeaderAll_header_append,
      stripHeaderAll_of_not_contains _ hno]
  constructor
  · rw [validate_string_ok buf hlen hhdr, hstrip]
  · rw [List.length_drop, hlen]
    decide

/-- C5 witness: the amended statement applied to `goodChecksumFrame`. -/
theorem c5_payload_is_88_chars_witness :
    (goodChecksumFrame.length = PACKET_CHAR_COUNT
      ∧ goodChecksumFrame.take 10 = headerChars
      ∧ containsHeader (goodChecksumFrame.drop 10) = false)
      ∧ validate_string goodChecksumFrame = .ok (goodChecksumFrame.drop 10)
      ∧ (goodChecksumFrame.drop 10).length = 88 :=
  ⟨⟨by decide, by decide, by decide⟩,
    c5_payload_is_88_chars goodChecksumFrame (by decide) (by decide)
      (by decide)⟩

/-- C6, counterexample: the humidity branch has no lower clamp — a decoded
humidity of -5.0 is stored unchanged as `outHumidity`, not clamped to
0.0. -/
theorem c6_humidity_clamp_counterexample :
    clampHumidity (-5) = -5 ∧ clampHumidity (-5) ≠ 0 := by
  constructor
  · norm_num [clampHumidity]
  · norm_num [clampHumidity]

/-- C6 (amended): the decoded humidity is clamped only from above — values
above 100.0 become 100.0 (so 137.2 yields 100.0) while every value at most
100.0, including negative ones, passes through unchanged (so -5.0 yields
-5.0, not 0.0). -/
theorem c6_humidity_upper_clamp_only (humi : ℚ) :
    (100 < humi → clampHumidity humi = 100)
      ∧ (humi ≤ 100 → clampHumidity humi = humi) := by
  constructor
  · intro h
    simp only [clampHumidity]
    rw [if_pos h]
  · intro h
    simp only [clampHumidity]
    rw [if_neg (not_lt.mpr h)]

/-- C6 witness: the amended statement applied at 137.2 and at -5.0. -/
theorem c6_humidity_upper_clamp_only_witness :
    ((100 : ℚ) < 1372 / 10 ∧ clampHumidity (1372 / 10) = 100)
      ∧ ((-5 : ℚ) ≤ 100 ∧ clampHumidity (-5) = -5) :=
  ⟨⟨by norm_num, (c6_humidity_upper_clamp_only (1372 / 10)).1 (by norm_num)⟩,
   ⟨by norm_num, (c6_humidity_upper_clamp_only (-5)).2 (by norm_num)⟩⟩

/-- C7: after `_augment_packet` the stored last cumulative rain and last
cumulative geiger count always equal the reading's new cumulative values,
whichever delta branches were taken. -/
theorem c7_state_always_updated (st : DriverState) (r : Reading) :
    (augment_packet st r).1
      = ⟨r.long_term_rain, r.long_term_geiger⟩ := rfl

/-- C8: the validation checks run in order — any buffer whose length
differs from 98 fails with the bad-length error regardless of its contents,
and any 98-character buffer whose first 10 characters differ from
`ccdd00022a` fails with the bad-header error. -/
theorem c8_check_order (buf : List Char) :
    (buf.length ≠ PACKET_CHAR_COUNT →
      validate_string buf = .error (.badLength buf.length))
      ∧ (buf.length = PACKET_CHAR_COUNT → buf.take 10 ≠ headerChars →
        validate_string buf = .error (.badHeader (buf.take 10))) := by
  constructor
  · intro h
    simp [validate_string, h]
  · intro h1 h2
    simp [validate_string, h1, h2, PACKET_CHAR_COUNT]

/-- C8 witness: a 1-character buffer fails on length; a 98-character buffer
of `f`s fails on header. -/
theorem c8_check_order_witness :
    (['a'].length ≠ PACKET_CHAR_COUNT
      ∧ validate_string ['a'] = .error (.badLength (['a'].length)))
      ∧ ((List.replicate 98 'f').length = PACKET_CHAR_COUNT
        ∧ (List.replicate 98 'f').take 10 ≠ headerChars
        ∧ validate_string (List.replicate 98 'f')
            = .error (.badHeader ((List.replicate 98 'f').take 10))) :=
  ⟨⟨by decide, (c8_check_order ['a']).1 (by decide)⟩,
   ⟨by decide, by decide,
     (c8_check_order (List.replicate 98 'f')).2 (by decide) (by decide)⟩⟩

/-- C9: encoding the big-endian bytes of an N-byte unsigned integer with
`bytes_to_hex_digits` (two lowercase hex characters per byte, in input
order) and parsing the result base-16 with `hex_digits_to_uint` recovers
the integer, for N in {1, 2, 4}. -/
theorem c9_codec_roundtrip (v : Nat) :
    (v < 2 ^ 8 →
      hex_digits_to_uint (bytes_to_hex_digits (uintToBytesBE 1 v)) = some v)
      ∧ (v < 2 ^ 16 →
        hex_digits_to_uint (bytes_to_hex_digits (uintToBytesBE 2 v))
          = some v)
      ∧ (v < 2 ^ 32 →
        hex_digits_to_uint (bytes_to_hex_digits (uintToBytesBE 4 v))
          = some v) := by
  refine ⟨fun h => ?_, fun h => ?_, fun h => ?_⟩
  · exact uintToBytesBE_roundtrip 1 v (by norm_num)
      (by norm_num at h ⊢; omega)
  · exact uintToBytesBE_roundtrip 2 v (by norm_num)
      (by norm_num at h ⊢; omega)
  · exact uintToBytesBE_roundtrip 4 v (by norm_num)
      (by norm_num at h ⊢; omega)

/-- C9 witness: the round-trip at the 2-byte value 48350 (0xbcde). -/
theorem c9_codec_roundtrip_witness :
    48350 < 2 ^ 16
      ∧ hex_digits_to_uint (bytes_to_hex_digits (uintToBytesBE 2 48350))
          = some 48350 :=
  ⟨by norm_num, (c9_codec_roundtrip 48350).2.1 (by norm_num)⟩

/-- C10: header stripping uses `replace`, which removes every occurrence of
`ccdd00022a`: `doubleHeaderFrame` has correct length and header, carries the
header substring again inside its data region, and is accepted with a
payload of only 78 hex characters — shorter than the 88 that stripping only
the prefix would leave, so every later field offset shifts. -/
theorem c10_strip_all_occurrences :
    validate_string doubleHeaderFrame = .ok (List.replicate 78 '0')
      ∧ (List.replicate 78 '0').length < 88 :=
  ⟨rfl, by decide⟩

end Swallow
